import Mathlib

/-!
Shallow embedding of the thumbnail cache and eviction engine of
src/app/model/ThumbnailModel.cpp.

Conventions of the embedding:
- A QPixmap is modelled by its pixel dimensions, `none` for a null pixmap.
- QMap / QHash containers are modelled as association lists `List (Int × _)`;
  iteration in the C++ scans is list order.  The theorems that depend on a
  victim chosen by a scan assume the minimum is unique, so they hold for any
  container iteration order.
- Wall-clock reads (QDateTime::currentMSecsSinceEpoch) are threaded through
  operations as an explicit `now` argument.
- The calls into the external ThumbnailGenerator are modelled by a dispatch
  counter incremented whenever generateThumbnail would be invoked.
- doubles (cache efficiency, quality) are modelled as exact rationals.
- The C++ `while` eviction loops are modelled with fuel equal to the number of
  cached entries; each productive iteration of the C++ loop removes one entry,
  so the fuel never runs out on the states in which the C++ loop terminates.
-/

namespace ThumbnailModel

/-- One cache entry, struct ThumbnailItem: a pixmap together with loading and
error flags, access metadata and the estimated memory size. -/
structure ThumbnailItem where
  pixmap : Option (Nat × Nat)
  isLoading : Bool
  hasError : Bool
  errorMessage : String
  lastAccessed : Int
  memorySize : Int
  pageSize : Option (Nat × Nat)
deriving Repr, DecidableEq

/-- Modelled from the spec: the default-constructed cache entry.  The header
declaring struct ThumbnailItem (ThumbnailModel.h) is not among the sources; the
spec's lifecycle says an entry is created Empty — no image, not loading, no
error, estimatedBytes 0. -/
def defaultItem : ThumbnailItem :=
  { pixmap := none, isLoading := false, hasError := false, errorMessage := "",
    lastAccessed := 0, memorySize := 0, pageSize := none }

/-- Association-list lookup, modelling QMap/QHash find. -/
def lookup (k : Int) : List (Int × α) → Option α
  | [] => none
  | (k2, v) :: rest => if k2 = k then some v else lookup k rest

/-- Remove the entry with key k, modelling QMap/QHash erase (keys are unique
in the C++ containers). -/
def eraseKey (k : Int) : List (Int × α) → List (Int × α)
  | [] => []
  | (k2, v) :: rest =>
      if k2 = k then eraseKey k rest else (k2, v) :: eraseKey k rest

/-- Replace the value at key k, appending at the end when absent, modelling
QMap/QHash operator[] assignment. -/
def setKey (k : Int) (v : α) : List (Int × α) → List (Int × α)
  | [] => [(k, v)]
  | (k2, w) :: rest =>
      if k2 = k then (k2, v) :: rest else (k2, w) :: setKey k v rest

/-- Apply f to the value stored at key k, leaving other entries alone. -/
def updateKey (k : Int) (f : α → α) : List (Int × α) → List (Int × α)
  | [] => []
  | (k2, v) :: rest =>
      if k2 = k then (k2, f v) :: updateKey k f rest
      else (k2, v) :: updateKey k f rest

/-- Lookup with a default, modelling QHash::value(key, def). -/
def getOr (k : Int) (d : α) (l : List (Int × α)) : α :=
  (lookup k l).getD d

/-- The whole model state: every member field of ThumbnailModel that the cache
logic reads or writes. -/
structure ModelState where
  document : Option Int
  thumbnailSize : Nat × Nat
  thumbnailQuality : ℚ
  maxCacheSize : Int
  maxMemory : Int
  currentMemory : Int
  cacheHits : Int
  cacheMisses : Int
  preloadRange : Int
  visibleStart : Int
  visibleEnd : Int
  viewportMargin : Int
  lazyLoadingEnabled : Bool
  adaptiveCaching : Bool
  lastCleanupTime : Int
  thumbnails : List (Int × ThumbnailItem)
  accessFrequency : List (Int × Int)
  pagePriorities : List (Int × Int)
  preloadQueue : List Int
  dispatchCount : Nat
deriving Repr, DecidableEq

/-- INT_MAX, the sentinel used by evictLeastFrequentlyUsed. -/
def INT_MAX : Int := 2147483647

/-- LLONG_MAX, the sentinel used by evictLeastFrequentlyUsed. -/
def LLONG_MAX : Int := 9223372036854775807

/-- ThumbnailModel::calculatePixmapMemory: width * height * 4, 0 for null. -/
def calculatePixmapMemory (pixmap : Option (Nat × Nat)) : Int :=
  match pixmap with
  | none => 0
  | some (w, h) => (w : Int) * h * 4

/-- ThumbnailModel::isInViewport. -/
def isInViewport (st : ModelState) (page : Int) : Bool :=
  if st.visibleStart < 0 ∨ st.visibleEnd < 0 then true
  else
    let expandedStart := max 0 (st.visibleStart - st.viewportMargin)
    let expandedEnd := st.visibleEnd + st.viewportMargin
    decide (expandedStart ≤ page ∧ page ≤ expandedEnd)

/-- ThumbnailModel::shouldGenerateThumbnail. -/
def shouldGenerateThumbnail (st : ModelState) (page : Int) : Bool :=
  if st.lazyLoadingEnabled then isInViewport st page else true

/-- ThumbnailModel::calculatePriority: the mapped tier, or the default 5. -/
def calculatePriority (st : ModelState) (page : Int) : Int :=
  (lookup page st.pagePriorities).getD 5

/-- The list of ints a, a+1, ..., b (empty when b < a): a C++ for loop range. -/
def intRange (a b : Int) : List Int :=
  (List.range (b + 1 - a).toNat).map (fun i => a + i)

/-- ThumbnailModel::updateViewportPriorities: rebuilds the priority map from
scratch — tier 0 for the visible range (bounds-checked), tier 1 for the margin
ranges on both sides. -/
def updateViewportPriorities (st : ModelState) : ModelState :=
  match st.document with
  | none => st
  | some numPages =>
    let p1 := (intRange st.visibleStart st.visibleEnd).foldl
      (fun m i => if 0 ≤ i ∧ i < numPages then setKey i 0 m else m) []
    let preloadStart := max 0 (st.visibleStart - st.viewportMargin)
    let preloadEnd := min (numPages - 1) (st.visibleEnd + st.viewportMargin)
    let p2 := (intRange preloadStart (st.visibleStart - 1)).foldl
      (fun m i => setKey i 1 m) p1
    let p3 := (intRange (st.visibleEnd + 1) preloadEnd).foldl
      (fun m i => setKey i 1 m) p2
    { st with pagePriorities := p3 }

/-- ThumbnailModel::setViewportRange. -/
def setViewportRange (st : ModelState) (s e margin : Int) : ModelState :=
  let st2 := { st with visibleStart := s, visibleEnd := e,
                       viewportMargin := margin }
  if st2.lazyLoadingEnabled then updateViewportPriorities st2 else st2

/-- ThumbnailModel::updateAccessFrequency: increment the page's counter, then
when the table exceeds twice the cache-size ceiling drop every entry whose
counter is at most 1. -/
def updateAccessFrequency (st : ModelState) (page : Int) : ModelState :=
  let freq := setKey page (getOr page 0 st.accessFrequency + 1)
    st.accessFrequency
  let freq2 :=
    if st.maxCacheSize * 2 < (freq.length : Int) then
      freq.filter (fun e => decide (1 < e.2))
    else freq
  { st with accessFrequency := freq2 }

/-- The in-place mutations requestThumbnail performs on the entry it marks as
loading. -/
def markLoading (now : Int) (it : ThumbnailItem) : ThumbnailItem :=
  { it with isLoading := true, hasError := false, errorMessage := "",
            lastAccessed := now }

/-- ThumbnailModel::requestThumbnail: guards on document and page validity and
on lazy loading, skips entries that are already cached or loading (refreshing
access metadata on a cache hit), otherwise marks the entry loading and
dispatches a generation request. -/
def requestThumbnail (st : ModelState) (page now : Int) : ModelState :=
  match st.document with
  | none => st
  | some numPages =>
    if page < 0 ∨ numPages ≤ page then st
    else if st.lazyLoadingEnabled && !(shouldGenerateThumbnail st page) then st
    else
      match lookup page st.thumbnails with
      | some it =>
        if it.pixmap ≠ none then
          let touched :=
            updateKey page (fun j => { j with lastAccessed := now })
              st.thumbnails
          updateAccessFrequency { st with thumbnails := touched } page
        else if it.isLoading then st
        else
          { st with
            thumbnails := setKey page (markLoading now it) st.thumbnails,
            dispatchCount := st.dispatchCount + 1 }
      | none =>
        { st with
          thumbnails := setKey page (markLoading now defaultItem) st.thumbnails,
          dispatchCount := st.dispatchCount + 1 }

/-- The mutations onThumbnailGenerated performs on the found entry. -/
def completeItem (pix : Nat × Nat) (now : Int) (it : ThumbnailItem) :
    ThumbnailItem :=
  { it with pixmap := some pix, isLoading := false, hasError := false,
            errorMessage := "", lastAccessed := now,
            memorySize := calculatePixmapMemory (some pix) }

/-- The scan of ThumbnailModel::evictLeastRecentlyUsed: running best entry,
replaced on strictly smaller lastAccessed. -/
def lruScan (best : Int × ThumbnailItem) :
    List (Int × ThumbnailItem) → Int × ThumbnailItem
  | [] => best
  | e :: rest =>
      lruScan (if e.2.lastAccessed < best.2.lastAccessed then e else best) rest

/-- ThumbnailModel::evictLeastRecentlyUsed: remove the entry with the oldest
lastAccessed and subtract its memorySize. -/
def evictLeastRecentlyUsed (st : ModelState) : ModelState :=
  match st.thumbnails with
  | [] => st
  | e :: rest =>
    let victim := lruScan e rest
    { st with currentMemory := st.currentMemory - victim.2.memorySize,
              thumbnails := eraseKey victim.1 st.thumbnails }

/-- The scan of ThumbnailModel::evictLeastFrequentlyUsed: accumulator is
(minFrequency, oldestTime, leastFrequentPage). -/
def lfuScan (freq : List (Int × Int)) :
    List (Int × ThumbnailItem) → Int × Int × Int → Int × Int × Int
  | [], acc => acc
  | (k, it) :: rest, (minF, oldT, pg) =>
    let f := getOr k 0 freq
    if f < minF ∨ (f = minF ∧ it.lastAccessed < oldT) then
      lfuScan freq rest (f, it.lastAccessed, k)
    else
      lfuScan freq rest (minF, oldT, pg)

/-- ThumbnailModel::evictLeastFrequentlyUsed: remove the entry with the lowest
access frequency, ties broken by oldest lastAccessed, and drop its frequency
counter. -/
def evictLeastFrequentlyUsed (st : ModelState) : ModelState :=
  if st.thumbnails.isEmpty then st
  else
    let scanned := lfuScan st.accessFrequency st.thumbnails
      (INT_MAX, LLONG_MAX, -1)
    let pg := scanned.2.2
    if 0 ≤ pg then
      match lookup pg st.thumbnails with
      | some it =>
        { st with currentMemory := st.currentMemory - it.memorySize,
                  thumbnails := eraseKey pg st.thumbnails,
                  accessFrequency := eraseKey pg st.accessFrequency }
      | none => st
    else st

/-- ThumbnailModel::calculateCacheEfficiency: hit ratio, 1.0 when there has
been no access at all. -/
def calculateCacheEfficiency (st : ModelState) : ℚ :=
  let totalAccess := st.cacheHits + st.cacheMisses
  if totalAccess = 0 then 1
  else (st.cacheHits : ℚ) / (totalAccess : ℚ)

/-- ThumbnailModel::evictByAdaptivePolicy: LRU when adaptive caching is off or
efficiency exceeds 0.7, LFU otherwise. -/
def evictByAdaptivePolicy (st : ModelState) : ModelState :=
  if st.adaptiveCaching = false then evictLeastRecentlyUsed st
  else if (7 : ℚ) / 10 < calculateCacheEfficiency st then
    evictLeastRecentlyUsed st
  else evictLeastFrequentlyUsed st

/-- The while loop at the end of onThumbnailGenerated: evict adaptively while
over the memory ceiling and more than one entry remains. -/
def memoryEvictLoop : Nat → ModelState → ModelState
  | 0, st => st
  | fuel + 1, st =>
    if st.maxMemory < st.currentMemory ∧ 1 < st.thumbnails.length then
      memoryEvictLoop fuel (evictByAdaptivePolicy st)
    else st

/-- ThumbnailModel::onThumbnailGenerated: drop the callback when the page is
absent from the store; otherwise install the pixmap, add its memory size to
the tracked total, and evict adaptively while over the memory ceiling. -/
def onThumbnailGenerated (st : ModelState) (page : Int) (pix : Nat × Nat)
    (now : Int) : ModelState :=
  match lookup page st.thumbnails with
  | none => st
  | some it =>
    let newIt := completeItem pix now it
    let st2 := { st with
      thumbnails := setKey page newIt st.thumbnails,
      currentMemory := st.currentMemory + newIt.memorySize }
    memoryEvictLoop st2.thumbnails.length st2

/-- ThumbnailModel::onThumbnailError: drop the callback when the page is
absent; otherwise record the error on the entry. -/
def onThumbnailError (st : ModelState) (page : Int) (msg : String)
    (now : Int) : ModelState :=
  match lookup page st.thumbnails with
  | none => st
  | some it =>
    let newIt := { it with isLoading := false, hasError := true,
                           errorMessage := msg, lastAccessed := now }
    { st with thumbnails := setKey page newIt st.thumbnails }

/-- ThumbnailModel::adaptCacheSize: at most once per 30000 ms, nudge the
item-count ceiling up (bounded by 300) under high efficiency and memory
headroom, or down (bounded by 50) under low efficiency. -/
def adaptCacheSize (st : ModelState) (now : Int) : ModelState :=
  if now - st.lastCleanupTime < 30000 then st
  else
    let st2 := { st with lastCleanupTime := now }
    let efficiency := calculateCacheEfficiency st2
    if (8 : ℚ) / 10 < efficiency ∧
        (st2.currentMemory : ℚ) < (st2.maxMemory : ℚ) * (8 / 10) then
      { st2 with maxCacheSize := min (st2.maxCacheSize + 10) 300 }
    else if efficiency < (5 : ℚ) / 10 then
      { st2 with maxCacheSize := max (st2.maxCacheSize - 5) 50 }
    else st2

/-- The first while loop of cleanupCache: evict adaptively while the store
exceeds the item-count ceiling. -/
def countEvictLoop : Nat → ModelState → ModelState
  | 0, st => st
  | fuel + 1, st =>
    if st.maxCacheSize < (st.thumbnails.length : Int) then
      countEvictLoop fuel (evictByAdaptivePolicy st)
    else st

/-- The second while loop of cleanupCache: evict adaptively while over the
memory ceiling and the store is nonempty (this loop may remove the last
entry). -/
def memoryEvictLoopNonempty : Nat → ModelState → ModelState
  | 0, st => st
  | fuel + 1, st =>
    if st.maxMemory < st.currentMemory ∧ st.thumbnails ≠ [] then
      memoryEvictLoopNonempty fuel (evictByAdaptivePolicy st)
    else st

/-- ThumbnailModel::cleanupCache. -/
def cleanupCache (st : ModelState) (now : Int) : ModelState :=
  if st.thumbnails.isEmpty then st
  else
    let st2 := adaptCacheSize st now
    let st3 := countEvictLoop st2.thumbnails.length st2
    memoryEvictLoopNonempty st3.thumbnails.length st3

/-- The while loop of setCacheSize: LRU-evict while over the item ceiling. -/
def lruEvictLoopCount : Nat → ModelState → ModelState
  | 0, st => st
  | fuel + 1, st =>
    if st.maxCacheSize < (st.thumbnails.length : Int) then
      lruEvictLoopCount fuel (evictLeastRecentlyUsed st)
    else st

/-- ThumbnailModel::setCacheSize. -/
def setCacheSize (st : ModelState) (maxItems : Int) : ModelState :=
  let st2 := { st with maxCacheSize := max 1 maxItems }
  lruEvictLoopCount st2.thumbnails.length st2

/-- The while loop of setMemoryLimit: LRU-evict while over the byte ceiling
and nonempty. -/
def lruEvictLoopMemory : Nat → ModelState → ModelState
  | 0, st => st
  | fuel + 1, st =>
    if st.maxMemory < st.currentMemory ∧ st.thumbnails ≠ [] then
      lruEvictLoopMemory fuel (evictLeastRecentlyUsed st)
    else st

/-- ThumbnailModel::setMemoryLimit. -/
def setMemoryLimit (st : ModelState) (maxMemory : Int) : ModelState :=
  let st2 := { st with maxMemory := max (1024 * 1024) maxMemory }
  lruEvictLoopMemory st2.thumbnails.length st2

/-- ThumbnailModel::clearCache. -/
def clearCache (st : ModelState) : ModelState :=
  { st with thumbnails := [], currentMemory := 0, preloadQueue := [] }

/-- ThumbnailModel::setDocument (the model reset and generator plumbing are
outside the cache logic). -/
def setDocument (st : ModelState) (doc : Option Int) : ModelState :=
  clearCache { st with document := doc }

/-- ThumbnailModel::refreshThumbnail: erase any existing entry (subtracting
its memory) and re-request. -/
def refreshThumbnail (st : ModelState) (page now : Int) : ModelState :=
  match st.document with
  | none => st
  | some numPages =>
    if page < 0 ∨ numPages ≤ page then st
    else
      let st2 :=
        match lookup page st.thumbnails with
        | some it =>
          { st with currentMemory := st.currentMemory - it.memorySize,
                    thumbnails := eraseKey page st.thumbnails }
        | none => st
      requestThumbnail st2 page now

/-- ThumbnailModel::shouldPreload. -/
def shouldPreload (st : ModelState) (page : Int) : Bool :=
  match st.document with
  | none => false
  | some numPages =>
    if page < 0 ∨ numPages ≤ page then false
    else
      match lookup page st.thumbnails with
      | some it =>
        if it.pixmap ≠ none then false
        else (!it.isLoading) && (!it.hasError)
      | none => true

/-- ThumbnailModel::data for PixmapRole: guarded on document and page
validity; a hit refreshes access metadata and bumps the hit counter; a miss
bumps the miss counter and requests generation. -/
def dataPixmap (st : ModelState) (page now : Int) :
    Option (Nat × Nat) × ModelState :=
  match st.document with
  | none => (none, st)
  | some numPages =>
    if page < 0 ∨ numPages ≤ page then (none, st)
    else
      match lookup page st.thumbnails with
      | some it =>
        let touched :=
          updateKey page (fun j => { j with lastAccessed := now })
            st.thumbnails
        let st2 := updateAccessFrequency { st with thumbnails := touched } page
        if it.pixmap ≠ none then
          (it.pixmap, { st2 with cacheHits := st2.cacheHits + 1 })
        else
          let st3 := { st2 with cacheMisses := st2.cacheMisses + 1 }
          (none, requestThumbnail st3 page now)
      | none =>
        let st2 := { st with cacheMisses := st.cacheMisses + 1 }
        (none, requestThumbnail st2 page now)

/-- The per-item mutation of the selective invalidation in setThumbnailSize
and setThumbnailQuality. -/
def invalidateItem (it : ThumbnailItem) : ThumbnailItem :=
  if it.pixmap ≠ none then
    { it with pixmap := none, memorySize := 0, isLoading := false }
  else it

/-- Total memory the selective invalidation subtracts: the memorySize of every
entry holding a pixmap. -/
def freedMemory (l : List (Int × ThumbnailItem)) : Int :=
  (l.filter (fun e => decide (e.2.pixmap ≠ none))).foldl
    (fun a e => a + e.2.memorySize) 0

/-- The invalidation loop shared by setThumbnailSize and
setThumbnailQuality. -/
def invalidateImages (st : ModelState) : ModelState :=
  { st with currentMemory := st.currentMemory - freedMemory st.thumbnails,
            thumbnails := st.thumbnails.map (fun e => (e.1, invalidateItem e.2)) }

/-- ThumbnailModel::setThumbnailSize. -/
def setThumbnailSize (st : ModelState) (size : Nat × Nat) : ModelState :=
  if st.thumbnailSize = size then st
  else invalidateImages { st with thumbnailSize := size }

/-- ThumbnailModel::setThumbnailQuality. -/
def setThumbnailQuality (st : ModelState) (quality : ℚ) : ModelState :=
  if (1 : ℚ) / 1000 < |st.thumbnailQuality - quality| then
    invalidateImages { st with thumbnailQuality := quality }
  else st

/-- QSet::insert on the preload queue: duplicates collapse. -/
def insertQueue (page : Int) (q : List Int) : List Int :=
  if page ∈ q then q else q ++ [page]

/-- ThumbnailModel::preloadVisibleRange. -/
def preloadVisibleRange (st : ModelState) (firstVisible lastVisible : Int) :
    ModelState :=
  match st.document with
  | none => st
  | some numPages =>
    let startPage := max 0 (firstVisible - st.preloadRange)
    let endPage := min (numPages - 1) (lastVisible + st.preloadRange)
    let q2 :=
      (intRange startPage endPage).foldl
        (fun q i => if shouldPreload st i then insertQueue i q else q)
        st.preloadQueue
    { st with preloadQueue := q2 }

/-- ThumbnailModel::onPreloadTimer: pop one queued page and request it. -/
def onPreloadTimer (st : ModelState) (now : Int) : ModelState :=
  match st.preloadQueue with
  | [] => st
  | page :: rest => requestThumbnail { st with preloadQueue := rest } page now

/-- The sum of memorySize over the store, as updateMemoryUsage computes it. -/
def memSum (l : List (Int × ThumbnailItem)) : Int :=
  l.foldl (fun a e => a + e.2.memorySize) 0

/-- ThumbnailModel::updateMemoryUsage: recompute the tracked total. -/
def updateMemoryUsage (st : ModelState) : ModelState :=
  { st with currentMemory := memSum st.thumbnails }

/-- The state established by the ThumbnailModel constructor, parameterized by
the DEFAULT_* header constants not among the sources. -/
def initState (size : Nat × Nat) (quality : ℚ) (maxCache maxMem preload : Int) :
    ModelState :=
  { document := none, thumbnailSize := size, thumbnailQuality := quality,
    maxCacheSize := maxCache, maxMemory := maxMem, currentMemory := 0,
    cacheHits := 0, cacheMisses := 0, preloadRange := preload,
    visibleStart := -1, visibleEnd := -1, viewportMargin := 2,
    lazyLoadingEnabled := true, adaptiveCaching := true, lastCleanupTime := 0,
    thumbnails := [], accessFrequency := [], pagePriorities := [],
    preloadQueue := [], dispatchCount := 0 }

/-- Strict lexicographic order on (frequency, lastAccessed) pairs: the order
in which evictLeastFrequentlyUsed improves its running minimum. -/
def lexLt (a b : Int × Int) : Prop :=
  a.1 < b.1 ∨ (a.1 = b.1 ∧ a.2 < b.2)

/-- Reflexive lexicographic order on (frequency, lastAccessed) pairs. -/
def lexLe (a b : Int × Int) : Prop :=
  a.1 < b.1 ∨ (a.1 = b.1 ∧ a.2 ≤ b.2)

/-- The (frequency, lastAccessed) pair the LFU scan ranks an entry by. -/
def scanPair (freq : List (Int × Int)) (e : Int × ThumbnailItem) : Int × Int :=
  (getOr e.1 0 freq, e.2.lastAccessed)

/-- The (minFrequency, oldestTime) components of the LFU scan accumulator. -/
def accKey (a : Int × Int × Int) : Int × Int :=
  (a.1, a.2.1)

/-- The lifecycle-state fields of an entry: loading and error flags, pixmap,
memory size and page size — everything except the access timestamp. -/
def entryCore (it : ThumbnailItem) :
    Bool × Bool × String × Option (Nat × Nat) × Int × Option (Nat × Nat) :=
  (it.isLoading, it.hasError, it.errorMessage, it.pixmap, it.memorySize,
   it.pageSize)

/-- An entry keyed by its page, with the access timestamp forgotten. -/
def coreKV (e : Int × ThumbnailItem) :
    Int × Bool × Bool × String × Option (Nat × Nat) × Int ×
      Option (Nat × Nat) :=
  (e.1, entryCore e.2)

/-- A freshly constructed model holding a 100-page document: the base state of
the concrete executions below. -/
def baseState : ModelState :=
  setDocument (initState (128, 128) (9 / 10) 50 (50 * 1024 * 1024) 3)
    (some 100)

/-- Page 0 requested once. -/
def driftStep1 : ModelState := requestThumbnail baseState 0 1

/-- A 10x10 thumbnail delivered for page 0: 400 bytes accounted. -/
def driftStep2 : ModelState := onThumbnailGenerated driftStep1 0 (10, 10) 2

/-- The same completion delivered a second time for the already-populated
entry of page 0. -/
def driftStep3 : ModelState := onThumbnailGenerated driftStep2 0 (10, 10) 3

/-- Item-count ceiling lowered to 1 on the empty cache. -/
def countStep1 : ModelState := setCacheSize baseState 1

/-- Pages 0 and 1 requested. -/
def countStep2 : ModelState :=
  requestThumbnail (requestThumbnail countStep1 0 1) 1 2

/-- Completion for page 0 delivered. -/
def countStep3 : ModelState := onThumbnailGenerated countStep2 0 (1, 1) 3

/-- Completion for page 1 delivered: the store now holds 2 entries against an
item-count ceiling of 1, and no eviction takes place. -/
def countStep4 : ModelState := onThumbnailGenerated countStep3 1 (1, 1) 4

/-- Pages 0 and 1 requested, then a completion delivered for page 1 only:
page 0 is Loading with the older timestamp, page 1 is Ready. -/
def loadingReadyState : ModelState :=
  onThumbnailGenerated (requestThumbnail (requestThumbnail baseState 0 1) 1 2)
    1 (1, 1) 2

/-- The state after evicting once from loadingReadyState. -/
def loadingEvictedState : ModelState :=
  evictLeastRecentlyUsed loadingReadyState

/-- The viewport scenario: setViewportRange(10, 15, margin 2) with lazy
loading enabled on the 100-page document. -/
def viewportState : ModelState := setViewportRange baseState 10 15 2

/-- Item-count ceiling 1, then pages 5, 6, 7 requested (entries created). -/
def freqStep1 : ModelState :=
  requestThumbnail (requestThumbnail (requestThumbnail
    (setCacheSize baseState 1) 5 1) 6 2) 7 3

/-- Pages 5 then 6 read through data/PixmapRole: their access counters reach
1 each. -/
def freqStep2 : ModelState :=
  (dataPixmap (dataPixmap freqStep1 5 4).2 6 5).2

/-- Page 7 read through data/PixmapRole: the frequency table (now 3 entries)
exceeds twice the ceiling and every counter of value at most 1 is pruned. -/
def freqStep3 : ModelState := (dataPixmap freqStep2 7 6).2

/-- The entry requestThumbnail creates for page 0 at time 1: Loading, no
pixmap, no memory accounted. -/
def loadingItem : ThumbnailItem :=
  { pixmap := none, isLoading := true, hasError := false, errorMessage := "",
    lastAccessed := 1, memorySize := 0, pageSize := none }

/-- The entry onThumbnailGenerated produces for a 10x10 pixmap at time 2. -/
def readyItem : ThumbnailItem :=
  { pixmap := some (10, 10), isLoading := false, hasError := false,
    errorMessage := "", lastAccessed := 2, memorySize := 400,
    pageSize := none }

/-- The Ready entry onThumbnailGenerated produces for a 1x1 pixmap at
time 2. -/
def readyOneItem : ThumbnailItem :=
  { pixmap := some (1, 1), isLoading := false, hasError := false,
    errorMessage := "", lastAccessed := 2, memorySize := 4, pageSize := none }

/-- A Ready 2x2 entry last accessed at time 5. -/
def itemOld : ThumbnailItem :=
  { pixmap := some (2, 2), isLoading := false, hasError := false,
    errorMessage := "", lastAccessed := 5, memorySize := 16, pageSize := none }

/-- A Ready 2x2 entry last accessed at time 9. -/
def itemNew : ThumbnailItem :=
  { pixmap := some (2, 2), isLoading := false, hasError := false,
    errorMessage := "", lastAccessed := 9, memorySize := 16, pageSize := none }

/-- A high-hit-ratio state (8 hits, 2 misses: efficiency 0.8) holding two
Ready entries with distinct timestamps. -/
def highRatioState : ModelState :=
  { baseState with cacheHits := 8, cacheMisses := 2, currentMemory := 32,
                   thumbnails := [(0, itemNew), (1, itemOld)] }

/-- A low-hit-ratio state (1 hit, 9 misses: efficiency 0.1) holding two Ready
entries, page 1 the less frequently accessed. -/
def lowRatioState : ModelState :=
  { baseState with cacheHits := 1, cacheMisses := 9, currentMemory := 32,
                   thumbnails := [(0, itemNew), (1, itemOld)],
                   accessFrequency := [(0, 3), (1, 1)] }

/-- Byte ceiling clamped down to its 1 MB minimum on the fresh cache. -/
def overStep1 : ModelState := setMemoryLimit baseState 0

/-- Page 0 requested. -/
def overStep2 : ModelState := requestThumbnail overStep1 0 1

/-- A 1024x1024 completion delivered for page 0: 4 MB accounted against the
1 MB ceiling, but the completion loop never evicts the only entry. -/
def overStep3 : ModelState := onThumbnailGenerated overStep2 0 (1024, 1024) 2

/-- setMemoryLimit again at the 1 MB floor: its eviction loop runs while the
store is nonempty, removing the last remaining entry. -/
def overStep4 : ModelState := setMemoryLimit overStep3 0

theorem lookup_mem {α : Type} {k : Int} {v : α} {l : List (Int × α)}
    (h : lookup k l = some v) : (k, v) ∈ l := by
  induction l with
  | nil => simp [lookup] at h
  | cons e rest ih =>
    obtain ⟨k2, w⟩ := e
    by_cases hk : k2 = k
    · subst hk
      simp [lookup] at h
      simp [h]
    · simp [lookup, hk] at h
      exact List.mem_cons_of_mem _ (ih h)

theorem lookup_isSome_of_mem {α : Type} {k : Int} {v : α} {l : List (Int × α)}
    (h : (k, v) ∈ l) : (lookup k l).isSome := by
  induction l with
  | nil => simp at h
  | cons e rest ih =>
    obtain ⟨k2, w⟩ := e
    by_cases hk : k2 = k
    · subst hk
      simp [lookup]
    · simp [lookup, hk]
      rcases List.mem_cons.mp h with h1 | h1
      · cases h1
        simp at hk
      · exact ih h1

theorem lookup_eq_some_of_nodup {α : Type} {k : Int} {v : α}
    {l : List (Int × α)} (hnodup : (l.map Prod.fst).Nodup)
    (h : (k, v) ∈ l) : lookup k l = some v := by
  induction l with
  | nil => simp at h
  | cons e rest ih =>
    obtain ⟨k2, w⟩ := e
    simp only [List.map_cons, List.nodup_cons] at hnodup
    rcases List.mem_cons.mp h with h1 | h1
    · cases h1
      simp [lookup]
    · have hk : k2 ≠ k := by
        intro he
        subst he
        exact hnodup.1 (List.mem_map_of_mem Prod.fst h1)
      simp [lookup, hk]
      exact ih hnodup.2 h1

theorem mem_eraseKey {α : Type} {k : Int} {e : Int × α} {l : List (Int × α)}
    (h : e ∈ eraseKey k l) : e ∈ l := by
  induction l with
  | nil => simp [eraseKey] at h
  | cons f rest ih =>
    obtain ⟨k2, w⟩ := f
    by_cases hk : k2 = k
    · simp [eraseKey, hk] at h
      exact List.mem_cons_of_mem _ (ih h)
    · simp only [eraseKey, if_neg hk] at h
      rcases List.mem_cons.mp h with h1 | h1
      · simp [h1]
      · exact List.mem_cons_of_mem _ (ih h1)

theorem lookup_eraseKey_self {α : Type} (k : Int) (l : List (Int × α)) :
    lookup k (eraseKey k l) = none := by
  induction l with
  | nil => simp [eraseKey, lookup]
  | cons e rest ih =>
    obtain ⟨k2, w⟩ := e
    by_cases hk : k2 = k
    · simp [eraseKey, hk, ih]
    · simp [eraseKey, lookup, hk, ih]

theorem lookup_eraseKey_ne {α : Type} {q k : Int} (hqk : q ≠ k)
    (l : List (Int × α)) : lookup q (eraseKey k l) = lookup q l := by
  induction l with
  | nil => simp [eraseKey]
  | cons e rest ih =>
    obtain ⟨k2, w⟩ := e
    by_cases hk : k2 = k
    · subst hk
      have : k2 ≠ q := fun he => hqk he.symm
      simp [eraseKey, lookup, this, ih]
    · by_cases hq : k2 = q
      · subst hq
        simp [eraseKey, hk, lookup]
      · simp [eraseKey, lookup, hk, hq, ih]

theorem eraseKey_length_lt {α : Type} {k : Int} {l : List (Int × α)}
    (h : k ∈ l.map Prod.fst) : (eraseKey k l).length < l.length := by
  induction l with
  | nil => simp at h
  | cons e rest ih =>
    obtain ⟨k2, w⟩ := e
    by_cases hk : k2 = k
    · have hle : (eraseKey k rest).length ≤ rest.length := by
        clear h ih hk
        induction rest with
        | nil => simp [eraseKey]
        | cons f r2 ih2 =>
          obtain ⟨k3, u⟩ := f
          by_cases hk3 : k3 = k
          · simp only [eraseKey, if_pos hk3, List.length_cons]
            omega
          · simp only [eraseKey, if_neg hk3, List.length_cons]
            omega
      simp only [eraseKey, if_pos hk, List.length_cons]
      omega
    · simp only [List.map_cons, List.mem_cons] at h
      rcases h with h1 | h1
      · exact absurd h1.symm hk
      · simp only [eraseKey, if_neg hk, List.length_cons]
        exact Nat.succ_lt_succ (ih h1)

theorem mem_setKey {α : Type} {k : Int} {v : α} {e : Int × α}
    {l : List (Int × α)} (h : e ∈ setKey k v l) : e = (k, v) ∨ e ∈ l := by
  induction l with
  | nil =>
    simp [setKey] at h
    exact Or.inl h
  | cons f rest ih =>
    obtain ⟨k2, w⟩ := f
    by_cases hk : k2 = k
    · subst hk
      simp only [setKey, if_pos rfl] at h
      rcases List.mem_cons.mp h with h1 | h1
      · exact Or.inl h1
      · exact Or.inr (List.mem_cons_of_mem _ h1)
    · simp only [setKey, if_neg hk] at h
      rcases List.mem_cons.mp h with h1 | h1
      · exact Or.inr (by simp [h1])
      · rcases ih h1 with h2 | h2
        · exact Or.inl h2
        · exact Or.inr (List.mem_cons_of_mem _ h2)

theorem lookup_setKey_self {α : Type} (k : Int) (v : α) (l : List (Int × α)) :
    lookup k (setKey k v l) = some v := by
  induction l with
  | nil => simp [setKey, lookup]
  | cons e rest ih =>
    obtain ⟨k2, w⟩ := e
    by_cases hk : k2 = k
    · simp [setKey, hk, lookup]
    · simp [setKey, lookup, hk, ih]

theorem lookup_setKey_ne {α : Type} {q k : Int} (hqk : q ≠ k) (v : α)
    (l : List (Int × α)) : lookup q (setKey k v l) = lookup q l := by
  induction l with
  | nil =>
    have : k ≠ q := fun he => hqk he.symm
    simp [setKey, lookup, this]
  | cons e rest ih =>
    obtain ⟨k2, w⟩ := e
    by_cases hk : k2 = k
    · subst hk
      have : k2 ≠ q := fun he => hqk he.symm
      simp [setKey, lookup, this]
    · by_cases hq : k2 = q
      · subst hq
        simp [setKey, hk, lookup]
      · simp [setKey, lookup, hk, hq, ih]

theorem updateKey_map_eq {α β : Type} {k : Int} {f : α → α} {g : α → β}
    (hfg : ∀ x, g (f x) = g x) (l : List (Int × α)) :
    (updateKey k f l).map (fun e => (e.1, g e.2)) =
      l.map (fun e => (e.1, g e.2)) := by
  induction l with
  | nil => simp [updateKey]
  | cons e rest ih =>
    obtain ⟨k2, w⟩ := e
    by_cases hk : k2 = k
    · simp [updateKey, hk, hfg, ih]
    · simp [updateKey, hk, ih]

theorem value_eq_of_nodup {α : Type} {k : Int} {a b : α} {l : List (Int × α)}
    (hnodup : (l.map Prod.fst).Nodup) (ha : (k, a) ∈ l) (hb : (k, b) ∈ l) :
    a = b := by
  have h1 := lookup_eq_some_of_nodup hnodup ha
  have h2 := lookup_eq_some_of_nodup hnodup hb
  rw [h1] at h2
  exact (Option.some.injEq _ _).mp h2

theorem getOr_lt_of_forall {c : Int} {freq : List (Int × Int)}
    (hfreq : ∀ e ∈ freq, e.2 < c) (hc : 0 < c) (k : Int) :
    getOr k 0 freq < c := by
  unfold getOr
  cases h : lookup k freq with
  | none => simpa using hc
  | some v =>
    have := hfreq _ (lookup_mem h)
    simpa using this

theorem lexLe_refl (a : Int × Int) : lexLe a a :=
  Or.inr ⟨rfl, le_refl _⟩

theorem lexLe_trans {a b c : Int × Int} (h1 : lexLe a b) (h2 : lexLe b c) :
    lexLe a c := by
  unfold lexLe at h1 h2 ⊢
  omega

theorem lruScan_spec (l : List (Int × ThumbnailItem)) :
    ∀ best : Int × ThumbnailItem,
      (lruScan best l = best ∨ lruScan best l ∈ l) ∧
      (lruScan best l).2.lastAccessed ≤ best.2.lastAccessed ∧
      ∀ e ∈ l, (lruScan best l).2.lastAccessed ≤ e.2.lastAccessed := by
  induction l with
  | nil =>
    intro best
    simp [lruScan]
  | cons e rest ih =>
    intro best
    simp only [lruScan]
    by_cases h : e.2.lastAccessed < best.2.lastAccessed
    · rw [if_pos h]
      obtain ⟨hmem, hle, hall⟩ := ih e
      refine ⟨?_, ?_, ?_⟩
      · rcases hmem with h1 | h1
        · exact Or.inr (by simp [h1])
        · exact Or.inr (List.mem_cons_of_mem _ h1)
      · exact le_trans hle (le_of_lt h)
      · intro x hx
        rcases List.mem_cons.mp hx with h1 | h1
        · rw [h1]
          exact hle
        · exact hall x h1
    · rw [if_neg h]
      obtain ⟨hmem, hle, hall⟩ := ih best
      refine ⟨?_, ?_, ?_⟩
      · rcases hmem with h1 | h1
        · exact Or.inl h1
        · exact Or.inr (List.mem_cons_of_mem _ h1)
      · exact hle
      · intro x hx
        rcases List.mem_cons.mp hx with h1 | h1
        · rw [h1]
          exact le_trans hle (not_lt.mp h)
        · exact hall x h1

theorem evictLRU_min (st : ModelState) (k : Int) (it : ThumbnailItem)
    (hmem : (k, it) ∈ st.thumbnails)
    (hnodup : (st.thumbnails.map Prod.fst).Nodup)
    (hmin : ∀ e ∈ st.thumbnails, e.1 ≠ k →
      it.lastAccessed < e.2.lastAccessed) :
    evictLeastRecentlyUsed st =
      { st with currentMemory := st.currentMemory - it.memorySize,
                thumbnails := eraseKey k st.thumbnails } := by
  cases hl : st.thumbnails with
  | nil =>
    rw [hl] at hmem
    simp at hmem
  | cons e rest =>
    obtain ⟨hvmem0, hvle0, hvall⟩ := lruScan_spec rest e
    have hvmem : lruScan e rest ∈ st.thumbnails := by
      rw [hl]
      rcases hvmem0 with h1 | h1
      · simp [h1]
      · exact List.mem_cons_of_mem _ h1
    have hvle : (lruScan e rest).2.lastAccessed ≤ it.lastAccessed := by
      rw [hl] at hmem
      rcases List.mem_cons.mp hmem with h1 | h1
      · subst h1
        exact hvle0
      · exact hvall _ h1
    have hvk : (lruScan e rest).1 = k := by
      by_contra hne
      exact absurd hvle (not_le.mpr (hmin _ hvmem hne))
    have hvit : (lruScan e rest).2 = it := by
      have hm2 : ((lruScan e rest).1, (lruScan e rest).2) ∈ st.thumbnails := by
        simpa using hvmem
      rw [hvk] at hm2
      exact value_eq_of_nodup hnodup hm2 hmem
    simp only [evictLeastRecentlyUsed, hl, hvk, hvit]

theorem lfuScan_spec (freq : List (Int × Int))
    (l : List (Int × ThumbnailItem)) :
    ∀ acc : Int × Int × Int,
      (lfuScan freq l acc = acc ∨
        ∃ e ∈ l, lfuScan freq l acc =
          (getOr e.1 0 freq, e.2.lastAccessed, e.1)) ∧
      lexLe (accKey (lfuScan freq l acc)) (accKey acc) ∧
      ∀ e ∈ l, lexLe (accKey (lfuScan freq l acc)) (scanPair freq e) := by
  induction l with
  | nil =>
    intro acc
    simp [lfuScan, lexLe_refl]
  | cons e rest ih =>
    rintro ⟨mF, oT, pg⟩
    obtain ⟨k, it⟩ := e
    simp only [lfuScan]
    by_cases h : getOr k 0 freq < mF ∨
        (getOr k 0 freq = mF ∧ it.lastAccessed < oT)
    · rw [if_pos h]
      obtain ⟨hmem, hle, hall⟩ := ih (getOr k 0 freq, it.lastAccessed, k)
      refine ⟨?_, ?_, ?_⟩
      · rcases hmem with h1 | ⟨x, hx, h1⟩
        · exact Or.inr ⟨(k, it), by simp, by simpa using h1⟩
        · exact Or.inr ⟨x, List.mem_cons_of_mem _ hx, h1⟩
      · refine lexLe_trans hle ?_
        unfold accKey lexLe
        simp only
        omega
      · intro x hx
        rcases List.mem_cons.mp hx with h1 | h1
        · rw [h1]
          exact hle
        · exact hall x h1
    · rw [if_neg h]
      obtain ⟨hmem, hle, hall⟩ := ih (mF, oT, pg)
      refine ⟨?_, ?_, ?_⟩
      · rcases hmem with h1 | ⟨x, hx, h1⟩
        · exact Or.inl h1
        · exact Or.inr ⟨x, List.mem_cons_of_mem _ hx, h1⟩
      · exact hle
      · intro x hx
        rcases List.mem_cons.mp hx with h1 | h1
        · rw [h1]
          refine lexLe_trans hle ?_
          unfold accKey scanPair lexLe
          simp only
          omega
        · exact hall x h1

theorem lfuScan_min (freq : List (Int × Int))
    (l : List (Int × ThumbnailItem)) (k : Int) (it : ThumbnailItem)
    (hmem : (k, it) ∈ l)
    (hfk : getOr k 0 freq < INT_MAX)
    (hmin : ∀ e ∈ l, e.1 ≠ k →
      lexLt (getOr k 0 freq, it.lastAccessed) (scanPair freq e)) :
    (lfuScan freq l (INT_MAX, LLONG_MAX, -1)).2.2 = k := by
  obtain ⟨hres, _, hall⟩ := lfuScan_spec freq l (INT_MAX, LLONG_MAX, -1)
  rcases hres with h1 | ⟨x, hx, h1⟩
  · exfalso
    have := hall (k, it) hmem
    rw [h1] at this
    unfold accKey scanPair lexLe at this
    simp only at this
    unfold INT_MAX at hfk
    unfold INT_MAX LLONG_MAX at this
    omega
  · by_cases hxk : x.1 = k
    · rw [h1]
      exact hxk
    · exfalso
      have hlt := hmin x hx hxk
      have hle := hall (k, it) hmem
      rw [h1] at hle
      unfold accKey scanPair lexLe at hle
      unfold scanPair lexLt at hlt
      simp only at hle hlt
      omega

theorem evictLFU_min (st : ModelState) (k : Int) (it : ThumbnailItem)
    (hmem : (k, it) ∈ st.thumbnails)
    (hnodup : (st.thumbnails.map Prod.fst).Nodup)
    (hk : 0 ≤ k)
    (hfk : getOr k 0 st.accessFrequency < INT_MAX)
    (hmin : ∀ e ∈ st.thumbnails, e.1 ≠ k →
      lexLt (getOr k 0 st.accessFrequency, it.lastAccessed)
        (scanPair st.accessFrequency e)) :
    evictLeastFrequentlyUsed st =
      { st with currentMemory := st.currentMemory - it.memorySize,
                thumbnails := eraseKey k st.thumbnails,
                accessFrequency := eraseKey k st.accessFrequency } := by
  have hne : st.thumbnails.isEmpty = false := by
    cases hl : st.thumbnails with
    | nil =>
      rw [hl] at hmem
      simp at hmem
    | cons e rest => simp
  have hpg := lfuScan_min st.accessFrequency st.thumbnails k it hmem hfk hmin
  have hfind := lookup_eq_some_of_nodup hnodup hmem
  simp only [evictLeastFrequentlyUsed, hne, Bool.false_eq_true, if_false,
    hpg, if_pos hk, hfind]

theorem lruShrinks (st : ModelState) (hne : st.thumbnails ≠ []) :
    (evictLeastRecentlyUsed st).thumbnails.length < st.thumbnails.length := by
  cases hl : st.thumbnails with
  | nil => exact absurd hl hne
  | cons e rest =>
    obtain ⟨hvmem0, _, _⟩ := lruScan_spec rest e
    have hvmem : lruScan e rest ∈ e :: rest := by
      rcases hvmem0 with h1 | h1
      · simp [h1]
      · exact List.mem_cons_of_mem _ h1
    have hkey : (lruScan e rest).1 ∈ (e :: rest).map Prod.fst :=
      List.mem_map_of_mem Prod.fst hvmem
    have hlen := eraseKey_length_lt hkey
    simp only [evictLeastRecentlyUsed, hl]
    exact hlen

theorem isEmpty_false_of_ne_nil {α : Type} {l : List α} (hne : l ≠ []) :
    l.isEmpty = false := by
  cases hl : l with
  | nil => exact absurd hl hne
  | cons a b => simp

theorem lfuShrinks (st : ModelState) (hne : st.thumbnails ≠ [])
    (hkeys : ∀ e ∈ st.thumbnails, 0 ≤ e.1)
    (hfreq : ∀ e ∈ st.accessFrequency, e.2 < INT_MAX) :
    (evictLeastFrequentlyUsed st).thumbnails.length <
      st.thumbnails.length := by
  obtain ⟨hres, _, hall⟩ :=
    lfuScan_spec st.accessFrequency st.thumbnails (INT_MAX, LLONG_MAX, -1)
  obtain ⟨e0, hmem0⟩ := List.exists_mem_of_ne_nil _ hne
  have hnemp : st.thumbnails.isEmpty = false := isEmpty_false_of_ne_nil hne
  rcases hres with h1 | ⟨x, hx, h1⟩
  · exfalso
    have hlex := hall e0 hmem0
    rw [h1] at hlex
    have hf0 : getOr e0.1 0 st.accessFrequency < INT_MAX :=
      getOr_lt_of_forall hfreq (by norm_num [INT_MAX]) _
    unfold accKey scanPair lexLe at hlex
    simp only at hlex
    unfold INT_MAX at hf0
    unfold INT_MAX LLONG_MAX at hlex
    omega
  · have hpg :
        (lfuScan st.accessFrequency st.thumbnails
          (INT_MAX, LLONG_MAX, -1)).2.2 = x.1 := by
      rw [h1]
    have hx0 : 0 ≤ x.1 := hkeys x hx
    have hxm : (x.1, x.2) ∈ st.thumbnails := by simpa using hx
    have hsome := lookup_isSome_of_mem hxm
    cases hfind : lookup x.1 st.thumbnails with
    | none =>
      rw [hfind] at hsome
      simp at hsome
    | some it2 =>
      have hkey : x.1 ∈ st.thumbnails.map Prod.fst :=
        List.mem_map_of_mem Prod.fst hxm
      have hlen := eraseKey_length_lt hkey
      simp only [evictLeastFrequentlyUsed, hnemp, Bool.false_eq_true,
        if_false, hpg, if_pos hx0, hfind]
      exact hlen

theorem evict_shrinks (st : ModelState) (hne : st.thumbnails ≠ [])
    (hkeys : ∀ e ∈ st.thumbnails, 0 ≤ e.1)
    (hfreq : ∀ e ∈ st.accessFrequency, e.2 < INT_MAX) :
    (evictByAdaptivePolicy st).thumbnails.length < st.thumbnails.length := by
  unfold evictByAdaptivePolicy
  split
  · exact lruShrinks st hne
  · split
    · exact lruShrinks st hne
    · exact lfuShrinks st hne hkeys hfreq

theorem evictLRU_mem {st : ModelState} {e : Int × ThumbnailItem}
    (h : e ∈ (evictLeastRecentlyUsed st).thumbnails) : e ∈ st.thumbnails := by
  cases hl : st.thumbnails with
  | nil =>
    simp only [evictLeastRecentlyUsed, hl] at h
    exact h
  | cons e0 rest =>
    simp only [evictLeastRecentlyUsed, hl] at h
    exact mem_eraseKey h

theorem evictLRU_freq (st : ModelState) :
    (evictLeastRecentlyUsed st).accessFrequency = st.accessFrequency := by
  cases hl : st.thumbnails with
  | nil => simp [evictLeastRecentlyUsed, hl]
  | cons e0 rest => simp [evictLeastRecentlyUsed, hl]

theorem evictLFU_mem_thumb {st : ModelState} {e : Int × ThumbnailItem}
    (h : e ∈ (evictLeastFrequentlyUsed st).thumbnails) : e ∈ st.thumbnails := by
  simp only [evictLeastFrequentlyUsed] at h
  split at h
  · exact h
  · split at h
    · split at h
      · exact mem_eraseKey h
      · exact h
    · exact h

theorem evictLFU_mem_freq {st : ModelState} {e : Int × Int}
    (h : e ∈ (evictLeastFrequentlyUsed st).accessFrequency) :
    e ∈ st.accessFrequency := by
  simp only [evictLeastFrequentlyUsed] at h
  split at h
  · exact h
  · split at h
    · split at h
      · exact mem_eraseKey h
      · exact h
    · exact h

theorem evict_mem_thumbnails {st : ModelState} {e : Int × ThumbnailItem}
    (h : e ∈ (evictByAdaptivePolicy st).thumbnails) : e ∈ st.thumbnails := by
  unfold evictByAdaptivePolicy at h
  split at h
  · exact evictLRU_mem h
  · split at h
    · exact evictLRU_mem h
    · exact evictLFU_mem_thumb h

theorem evict_mem_freq {st : ModelState} {e : Int × Int}
    (h : e ∈ (evictByAdaptivePolicy st).accessFrequency) :
    e ∈ st.accessFrequency := by
  unfold evictByAdaptivePolicy at h
  split at h
  · exact evictLRU_freq st ▸ h
  · split at h
    · exact evictLRU_freq st ▸ h
    · exact evictLFU_mem_freq h

theorem evictLRU_maxMemory (st : ModelState) :
    (evictLeastRecentlyUsed st).maxMemory = st.maxMemory := by
  cases hl : st.thumbnails with
  | nil => simp [evictLeastRecentlyUsed, hl]
  | cons e0 rest => simp [evictLeastRecentlyUsed, hl]

theorem evictLFU_maxMemory (st : ModelState) :
    (evictLeastFrequentlyUsed st).maxMemory = st.maxMemory := by
  simp only [evictLeastFrequentlyUsed]
  split
  · rfl
  · split
    · split
      · rfl
      · rfl
    · rfl

theorem evict_maxMemory (st : ModelState) :
    (evictByAdaptivePolicy st).maxMemory = st.maxMemory := by
  unfold evictByAdaptivePolicy
  split
  · exact evictLRU_maxMemory st
  · split
    · exact evictLRU_maxMemory st
    · exact evictLFU_maxMemory st

theorem memoryEvictLoop_post (fuel : Nat) :
    ∀ st : ModelState,
      (∀ e ∈ st.thumbnails, 0 ≤ e.1) →
      (∀ e ∈ st.accessFrequency, e.2 < INT_MAX) →
      st.thumbnails.length ≤ fuel →
      (memoryEvictLoop fuel st).currentMemory ≤
          (memoryEvictLoop fuel st).maxMemory ∨
        (memoryEvictLoop fuel st).thumbnails.length ≤ 1 := by
  induction fuel with
  | zero =>
    intro st h1 h2 h3
    right
    simpa [memoryEvictLoop] using Nat.le_trans h3 (by omega)
  | succ n ih =>
    intro st h1 h2 h3
    by_cases hc : st.maxMemory < st.currentMemory ∧ 1 < st.thumbnails.length
    · simp only [memoryEvictLoop, if_pos hc]
      have hne : st.thumbnails ≠ [] := by
        intro h
        rw [h] at hc
        simp at hc
      have hlt := evict_shrinks st hne h1 h2
      exact ih _ (fun e he => h1 e (evict_mem_thumbnails he))
        (fun e he => h2 e (evict_mem_freq he)) (by omega)
    · simp only [memoryEvictLoop, if_neg hc]
      omega

theorem getOr_filter_prune (l : List (Int × Int)) (q : Int) :
    getOr q 0 l ≤ getOr q 0 (l.filter (fun e => decide (1 < e.2))) ∨
    (getOr q 0 (l.filter (fun e => decide (1 < e.2))) = 0 ∧
      getOr q 0 l ≤ 1) := by
  induction l with
  | nil =>
    left
    simp [getOr, lookup]
  | cons e rest ih =>
    obtain ⟨k, v⟩ := e
    by_cases hv : 1 < v
    · have hfil : ((k, v) :: rest).filter (fun e => decide (1 < e.2)) =
          (k, v) :: rest.filter (fun e => decide (1 < e.2)) := by
        simp [List.filter_cons, hv]
      rw [hfil]
      by_cases hk : k = q
      · subst hk
        left
        simp [getOr, lookup]
      · simp only [getOr, lookup, if_neg hk]
        exact ih
    · have hfil : ((k, v) :: rest).filter (fun e => decide (1 < e.2)) =
          rest.filter (fun e => decide (1 < e.2)) := by
        simp [List.filter_cons, hv]
      rw [hfil]
      by_cases hk : k = q
      · subst hk
        cases hlk : lookup k (rest.filter (fun e => decide (1 < e.2))) with
        | none =>
          right
          constructor
          · simp [getOr, hlk]
          · simp [getOr, lookup]
            omega
        | some w =>
          left
          have hwmem := lookup_mem hlk
          have hw : 1 < w := by
            have h2 := (List.mem_filter.mp hwmem).2
            simpa using h2
          simp [getOr, lookup, hlk]
          omega
      · simp only [getOr, lookup, if_neg hk]
        exact ih

theorem updateKey_touch_coreKV (k now : Int)
    (l : List (Int × ThumbnailItem)) :
    (updateKey k (fun j => { j with lastAccessed := now }) l).map coreKV =
      l.map coreKV := by
  induction l with
  | nil => simp [updateKey]
  | cons e rest ih =>
    obtain ⟨k2, w⟩ := e
    by_cases hk : k2 = k
    · simp [updateKey, hk, coreKV, entryCore, ih]
    · simp [updateKey, hk, ih]

/-- Claim C1 (code bug): the tracked total m_currentMemory does NOT stay
equal to the sum of memorySize over the store under repeated delivery of a
completion for an already-populated entry.  After the second delivery of the
same 10x10 completion for page 0, the sum over the store is 400 bytes while
the tracked total has drifted to 800 bytes: onThumbnailGenerated adds the new
memorySize without first subtracting the entry's previous one. -/
theorem C1_memory_drift_on_repeated_completion :
    memSum driftStep2.thumbnails = 400 ∧ driftStep2.currentMemory = 400 ∧
    memSum driftStep3.thumbnails = 400 ∧ driftStep3.currentMemory = 800 ∧
    memSum driftStep3.thumbnails ≠ driftStep3.currentMemory := by
  decide

/-- Claim C2 is false as stated: after the completion callback
onThumbnailGenerated returns, the store holds 2 entries against an item-count
ceiling of 1 while well under the byte ceiling (the callback's eviction loop
checks only the byte ceiling), and the eviction loop of setMemoryLimit
removes the last remaining entry when it alone exceeds the byte ceiling. -/
theorem C2_ceiling_counterexample :
    (1 < countStep4.thumbnails.length ∧
      countStep4.maxCacheSize < (countStep4.thumbnails.length : Int) ∧
      countStep4.currentMemory ≤ countStep4.maxMemory) ∧
    (overStep3.thumbnails.length = 1 ∧ overStep4.thumbnails.length = 0) := by
  decide

/-- Claim C2 amended: after a completion callback that finds its entry, the
tracked total does not exceed the byte ceiling unless at most one entry
remains.  The item-count ceiling is enforced only by cleanupCache and
setCacheSize, not after every mutating operation, and eviction loops outside
onThumbnailGenerated may remove the last remaining entry. -/
theorem C2_memory_ceiling_after_completion (st : ModelState) (page : Int)
    (pix : Nat × Nat) (now : Int)
    (hkeys : ∀ e ∈ st.thumbnails, 0 ≤ e.1)
    (hfreq : ∀ e ∈ st.accessFrequency, e.2 < INT_MAX)
    (hfound : (lookup page st.thumbnails).isSome = true) :
    (onThumbnailGenerated st page pix now).currentMemory ≤
        (onThumbnailGenerated st page pix now).maxMemory ∨
      (onThumbnailGenerated st page pix now).thumbnails.length ≤ 1 := by
  cases hl : lookup page st.thumbnails with
  | none =>
    rw [hl] at hfound
    simp at hfound
  | some it =>
    have hpage : 0 ≤ page := hkeys _ (lookup_mem hl)
    simp only [onThumbnailGenerated, hl]
    refine memoryEvictLoop_post _ _ ?_ ?_ (le_refl _)
    · intro e he
      rcases mem_setKey he with h1 | h1
      · rw [h1]
        exact hpage
      · exact hkeys e h1
    · intro e he
      exact hfreq e he

/-- Witness for C2: the amended theorem applied at the concrete state
countStep3 with the completion for page 1. -/
theorem C2_memory_ceiling_witness :
    (∀ e ∈ countStep3.thumbnails, 0 ≤ e.1) ∧
    (∀ e ∈ countStep3.accessFrequency, e.2 < INT_MAX) ∧
    (lookup 1 countStep3.thumbnails).isSome = true ∧
    ((onThumbnailGenerated countStep3 1 (1, 1) 4).currentMemory ≤
        (onThumbnailGenerated countStep3 1 (1, 1) 4).maxMemory ∨
      (onThumbnailGenerated countStep3 1 (1, 1) 4).thumbnails.length ≤ 1) :=
  ⟨by decide, by decide, by decide,
    C2_memory_ceiling_after_completion countStep3 1 (1, 1) 4 (by decide)
      (by decide) (by decide)⟩

/-- Claim C3 is false as stated: from a reachable state where page 0 is
Loading with the older timestamp and page 1 is Ready, one
evictLeastRecentlyUsed step removes the Loading entry of page 0 even though
the Ready entry of page 1 was available to evict instead. -/
theorem C3_loading_evicted_counterexample :
    lookup 0 loadingReadyState.thumbnails = some loadingItem ∧
    loadingItem.isLoading = true ∧
    lookup 1 loadingReadyState.thumbnails = some readyOneItem ∧
    readyOneItem.isLoading = false ∧ readyOneItem.hasError = false ∧
    readyOneItem.pixmap ≠ none ∧
    lookup 0 loadingEvictedState.thumbnails = none ∧
    (lookup 1 loadingEvictedState.thumbnails).isSome = true := by
  decide

/-- Claim C3 amended: an eviction step selects its victim solely by the
recency scan (smallest lastAccessed) or the frequency scan (smallest
frequency, ties by smallest lastAccessed) — the loading flag is never
consulted, so a Loading entry is removed whenever it minimizes the scan key,
even when Ready or Errored entries exist.  No hypothesis constrains the
victim's isLoading flag. -/
theorem C3_eviction_ignores_loading (st : ModelState) (k : Int)
    (it : ThumbnailItem) (hmem : (k, it) ∈ st.thumbnails)
    (hnodup : (st.thumbnails.map Prod.fst).Nodup) :
    ((∀ e ∈ st.thumbnails, e.1 ≠ k → it.lastAccessed < e.2.lastAccessed) →
      evictLeastRecentlyUsed st =
        { st with currentMemory := st.currentMemory - it.memorySize,
                  thumbnails := eraseKey k st.thumbnails }) ∧
    (0 ≤ k → getOr k 0 st.accessFrequency < INT_MAX →
      (∀ e ∈ st.thumbnails, e.1 ≠ k →
        lexLt (getOr k 0 st.accessFrequency, it.lastAccessed)
          (scanPair st.accessFrequency e)) →
      evictLeastFrequentlyUsed st =
        { st with currentMemory := st.currentMemory - it.memorySize,
                  thumbnails := eraseKey k st.thumbnails,
                  accessFrequency := eraseKey k st.accessFrequency }) :=
  ⟨fun hmin => evictLRU_min st k it hmem hnodup hmin,
   fun hk hfk hmin => evictLFU_min st k it hmem hnodup hk hfk hmin⟩

/-- Witness for C3: the amended theorem applied at loadingReadyState with the
Loading entry of page 0 as the unique recency minimum. -/
theorem C3_eviction_ignores_loading_witness :
    ((0 : Int), loadingItem) ∈ loadingReadyState.thumbnails ∧
    (loadingReadyState.thumbnails.map Prod.fst).Nodup ∧
    evictLeastRecentlyUsed loadingReadyState =
      { loadingReadyState with
          currentMemory :=
            loadingReadyState.currentMemory - loadingItem.memorySize,
          thumbnails := eraseKey 0 loadingReadyState.thumbnails } :=
  ⟨by decide, by decide,
    (C3_eviction_ignores_loading loadingReadyState 0 loadingItem (by decide)
      (by decide)).1 (by decide)⟩

/-- Claim C4: with adaptive caching on, one adaptive eviction step removes
the entry with the numerically smallest lastAccessed when the hit ratio
exceeds 0.7, and the entry with the smallest access-frequency count (ties
broken by smallest lastAccessed) when the hit ratio is below 0.5; stated for
a unique minimizer. -/
theorem C4_adaptive_eviction_selects_min (st : ModelState) (k : Int)
    (it : ThumbnailItem) (hadapt : st.adaptiveCaching = true)
    (hmem : (k, it) ∈ st.thumbnails)
    (hnodup : (st.thumbnails.map Prod.fst).Nodup) :
    ((7 : ℚ) / 10 < calculateCacheEfficiency st →
      (∀ e ∈ st.thumbnails, e.1 ≠ k → it.lastAccessed < e.2.lastAccessed) →
      evictByAdaptivePolicy st =
        { st with currentMemory := st.currentMemory - it.memorySize,
                  thumbnails := eraseKey k st.thumbnails }) ∧
    (calculateCacheEfficiency st < (5 : ℚ) / 10 →
      0 ≤ k → getOr k 0 st.accessFrequency < INT_MAX →
      (∀ e ∈ st.thumbnails, e.1 ≠ k →
        lexLt (getOr k 0 st.accessFrequency, it.lastAccessed)
          (scanPair st.accessFrequency e)) →
      evictByAdaptivePolicy st =
        { st with currentMemory := st.currentMemory - it.memorySize,
                  thumbnails := eraseKey k st.thumbnails,
                  accessFrequency := eraseKey k st.accessFrequency }) := by
  constructor
  · intro heff hmin
    unfold evictByAdaptivePolicy
    rw [if_neg (by simp [hadapt]), if_pos heff]
    exact evictLRU_min st k it hmem hnodup hmin
  · intro heff hk hfk hmin
    have hnot : ¬((7 : ℚ) / 10 < calculateCacheEfficiency st) := by
      intro hcon
      linarith
    unfold evictByAdaptivePolicy
    rw [if_neg (by simp [hadapt]), if_neg hnot]
    exact evictLFU_min st k it hmem hnodup hk hfk hmin

/-- Witness for C4: the theorem applied at highRatioState (hit ratio 0.8),
where the recency branch removes the entry of page 1 with lastAccessed 5. -/
theorem C4_adaptive_eviction_witness :
    highRatioState.adaptiveCaching = true ∧
    ((1 : Int), itemOld) ∈ highRatioState.thumbnails ∧
    (highRatioState.thumbnails.map Prod.fst).Nodup ∧
    evictByAdaptivePolicy highRatioState =
      { highRatioState with
          currentMemory := highRatioState.currentMemory - itemOld.memorySize,
          thumbnails := eraseKey 1 highRatioState.thumbnails } :=
  ⟨rfl, by decide, by decide,
    (C4_adaptive_eviction_selects_min highRatioState 1 itemOld rfl (by decide)
      (by decide)).1
      (by norm_num [calculateCacheEfficiency, highRatioState, baseState,
        setDocument, clearCache, initState])
      (by decide)⟩

/-- Claim C5: requestThumbnail on a page whose entry is already Loading or
already holds a valid pixmap dispatches no generation request and leaves
every entry's lifecycle state (loading and error flags, pixmap, memory size,
page size) and the tracked memory unchanged; on a populated entry only the
access metadata (lastAccessed and the frequency table) is refreshed. -/
theorem C5_request_skips_loaded_or_loading (st : ModelState) (page now : Int)
    (it : ThumbnailItem) (hit : lookup page st.thumbnails = some it)
    (hskip : it.isLoading = true ∨ it.pixmap ≠ none) :
    (requestThumbnail st page now).dispatchCount = st.dispatchCount ∧
    (requestThumbnail st page now).thumbnails.map coreKV =
      st.thumbnails.map coreKV ∧
    (requestThumbnail st page now).currentMemory = st.currentMemory := by
  cases hdoc : st.document with
  | none =>
    simp [requestThumbnail, hdoc]
  | some n =>
    simp only [requestThumbnail, hdoc]
    by_cases hvalid : page < 0 ∨ n ≤ page
    · rw [if_pos hvalid]
      exact ⟨rfl, rfl, rfl⟩
    · rw [if_neg hvalid]
      by_cases hlazy :
          (st.lazyLoadingEnabled && !(shouldGenerateThumbnail st page)) = true
      · rw [if_pos hlazy]
        exact ⟨rfl, rfl, rfl⟩
      · rw [if_neg hlazy]
        simp only [hit]
        by_cases hpix : it.pixmap ≠ none
        · rw [if_pos hpix]
          exact ⟨rfl, updateKey_touch_coreKV page now st.thumbnails, rfl⟩
        · rw [if_neg hpix]
          have hload : it.isLoading = true := by
            rcases hskip with h | h
            · exact h
            · exact absurd h hpix
          rw [if_pos hload]
          exact ⟨rfl, rfl, rfl⟩

/-- Witness for C5: the theorem applied at the state where page 0 is Ready
with a valid 10x10 pixmap. -/
theorem C5_request_skips_witness :
    lookup 0 driftStep2.thumbnails = some readyItem ∧
    (readyItem.isLoading = true ∨ readyItem.pixmap ≠ none) ∧
    ((requestThumbnail driftStep2 0 9).dispatchCount =
        driftStep2.dispatchCount ∧
      (requestThumbnail driftStep2 0 9).thumbnails.map coreKV =
        driftStep2.thumbnails.map coreKV ∧
      (requestThumbnail driftStep2 0 9).currentMemory =
        driftStep2.currentMemory) :=
  ⟨by decide, by decide,
    C5_request_skips_loaded_or_loading driftStep2 0 9 readyItem (by decide)
      (by decide)⟩

/-- Claim C6 is false as stated in its eligibility part: after
setViewportRange(10, 15, margin 2) with lazy loading enabled, page 8 lies in
the inclusive expanded range [8, 17], so isInViewport and
shouldGenerateThumbnail return true for page 8, not false. -/
theorem C6_page8_eligibility_counterexample :
    viewportState.lazyLoadingEnabled = true ∧
    viewportState.visibleStart = 10 ∧ viewportState.visibleEnd = 15 ∧
    viewportState.viewportMargin = 2 ∧
    isInViewport viewportState 8 = true ∧
    shouldGenerateThumbnail viewportState 8 = true := by
  decide

/-- Claim C6 amended: after setViewportRange(10, 15, margin 2) with lazy
loading enabled on the 100-page document, page 12 has priority tier 0, pages
9 and 17 tier 1, page 50 the default tier 5; eligibility for generation is
false for page 7 and true for pages 8 and 9 (the expanded range
[visibleStart - margin, visibleEnd + margin] = [8, 17] is inclusive at both
ends). -/
theorem C6_viewport_scenario :
    calculatePriority viewportState 12 = 0 ∧
    calculatePriority viewportState 9 = 1 ∧
    calculatePriority viewportState 17 = 1 ∧
    calculatePriority viewportState 50 = 5 ∧
    shouldGenerateThumbnail viewportState 7 = false ∧
    shouldGenerateThumbnail viewportState 8 = true ∧
    shouldGenerateThumbnail viewportState 9 = true := by
  decide

/-- Claim C7: a completion or failure callback for a page absent from the
store leaves the whole model state unchanged — no entry is created, the
tracked memory and all other entries are untouched. -/
theorem C7_stale_callback_dropped (st : ModelState) (page : Int)
    (pix : Nat × Nat) (msg : String) (now : Int)
    (habs : lookup page st.thumbnails = none) :
    onThumbnailGenerated st page pix now = st ∧
    onThumbnailError st page msg now = st := by
  constructor
  · simp only [onThumbnailGenerated, habs]
  · simp only [onThumbnailError, habs]

/-- Witness for C7: the theorem applied after page 0 was evicted, with the
spec's decode-error scenario. -/
theorem C7_stale_callback_witness :
    lookup 0 loadingEvictedState.thumbnails = none ∧
    (onThumbnailGenerated loadingEvictedState 0 (10, 10) 9 =
        loadingEvictedState ∧
      onThumbnailError loadingEvictedState 0 "decode error" 9 =
        loadingEvictedState) :=
  ⟨by decide,
    C7_stale_callback_dropped loadingEvictedState 0 (10, 10) "decode error" 9
      (by decide)⟩

/-- Claim C8 is false as stated: reading page 7 through data/PixmapRole (a
subsequent operation) prunes the frequency table, dropping page 5's access
counter from 1 to 0. -/
theorem C8_counter_decrease_counterexample :
    getOr 5 0 freqStep2.accessFrequency = 1 ∧
    getOr 5 0 freqStep3.accessFrequency = 0 := by
  decide

/-- Claim C8 amended: a page's access counter never decreases except that it
is dropped to zero — by the pruning inside updateAccessFrequency when the
table exceeds twice the item-count ceiling (only counters at most 1 are
pruned), or by evictLeastFrequentlyUsed removing the evicted page's
counter. -/
theorem C8_counter_monotone_except_removal (st : ModelState)
    (page q : Int) :
    (getOr q 0 st.accessFrequency ≤
        getOr q 0 (updateAccessFrequency st page).accessFrequency ∨
      (getOr q 0 (updateAccessFrequency st page).accessFrequency = 0 ∧
        getOr q 0 st.accessFrequency ≤ 1)) ∧
    (getOr q 0 (evictLeastFrequentlyUsed st).accessFrequency =
        getOr q 0 st.accessFrequency ∨
      getOr q 0 (evictLeastFrequentlyUsed st).accessFrequency = 0) := by
  constructor
  · have hbase : getOr q 0 st.accessFrequency ≤
        getOr q 0 (setKey page (getOr page 0 st.accessFrequency + 1)
          st.accessFrequency) := by
      by_cases hq : q = page
      · subst hq
        unfold getOr
        rw [lookup_setKey_self]
        simp only [Option.getD_some]
        omega
      · unfold getOr
        rw [lookup_setKey_ne hq]
    simp only [updateAccessFrequency]
    split
    · rcases getOr_filter_prune
        (setKey page (getOr page 0 st.accessFrequency + 1)
          st.accessFrequency) q with h1 | h1
      · left
        exact le_trans hbase h1
      · right
        exact ⟨h1.1, le_trans hbase h1.2⟩
    · left
      exact hbase
  · simp only [evictLeastFrequentlyUsed]
    split
    · left
      rfl
    · split
      · split
        · by_cases hq : q = (lfuScan st.accessFrequency st.thumbnails
              (INT_MAX, LLONG_MAX, -1)).2.2
          · right
            unfold getOr
            rw [hq, lookup_eraseKey_self]
            rfl
          · left
            unfold getOr
            rw [lookup_eraseKey_ne hq]
        · left
          rfl
      · left
        rfl

/-- Claim C9: for an invalid page index (negative or at least the page
count), requestThumbnail, refreshThumbnail, data for PixmapRole and
shouldPreload leave the state unchanged and return an empty or false
result. -/
theorem C9_invalid_page_noop (st : ModelState) (page now : Int) (n : Int)
    (hdoc : st.document = some n) (hinvalid : page < 0 ∨ n ≤ page) :
    requestThumbnail st page now = st ∧
    refreshThumbnail st page now = st ∧
    dataPixmap st page now = (none, st) ∧
    shouldPreload st page = false := by
  refine ⟨?_, ?_, ?_, ?_⟩
  · simp only [requestThumbnail, hdoc]
    rw [if_pos hinvalid]
  · simp only [refreshThumbnail, hdoc]
    rw [if_pos hinvalid]
  · simp only [dataPixmap, hdoc]
    rw [if_pos hinvalid]
  · simp only [shouldPreload, hdoc]
    rw [if_pos hinvalid]

/-- Witness for C9: the theorem applied at the 100-page base state with the
out-of-range page 150. -/
theorem C9_invalid_page_witness :
    baseState.document = some 100 ∧ ((150 : Int) < 0 ∨ (100 : Int) ≤ 150) ∧
    (requestThumbnail baseState 150 7 = baseState ∧
      refreshThumbnail baseState 150 7 = baseState ∧
      dataPixmap baseState 150 7 = (none, baseState) ∧
      shouldPreload baseState 150 = false) :=
  ⟨rfl, by decide,
    C9_invalid_page_noop baseState 150 7 100 rfl (by decide)⟩

/-- Claim C10: calculateCacheEfficiency is total — with zero cumulative hits
and misses the division is guarded and the result is exactly 1 — so on a
never-accessed cache the adaptive policy always takes the recency (LRU)
branch. -/
theorem C10_efficiency_guard_lru_default (st : ModelState)
    (h1 : st.cacheHits = 0) (h2 : st.cacheMisses = 0) :
    calculateCacheEfficiency st = 1 ∧
    (st.adaptiveCaching = true →
      evictByAdaptivePolicy st = evictLeastRecentlyUsed st) := by
  have he : calculateCacheEfficiency st = 1 := by
    simp [calculateCacheEfficiency, h1, h2]
  refine ⟨he, fun ha => ?_⟩
  unfold evictByAdaptivePolicy
  rw [if_neg (by simp [ha]), if_pos (by rw [he]; norm_num)]

/-- Witness for C10: the theorem applied at the never-accessed base state. -/
theorem C10_efficiency_guard_witness :
    baseState.cacheHits = 0 ∧ baseState.cacheMisses = 0 ∧
    (calculateCacheEfficiency baseState = 1 ∧
      (baseState.adaptiveCaching = true →
        evictByAdaptivePolicy baseState = evictLeastRecentlyUsed baseState)) :=
  ⟨rfl, rfl, C10_efficiency_guard_lru_default baseState rfl rfl⟩

end ThumbnailModel
